import Mathlib

/-!
Verification of the stock-storage layer: a shallow embedding of the
`StockDaily` record model, the SQLite-backed table state with its
`UNIQUE(code, date)` upsert, the remote (S3-backed) working-copy
protocol, and the storage manager's backend resolution.

Conventions of the embedding:
* SQLite REAL columns hold only stored (never computed-on) numbers, so
  they are modelled as `Option Rat`; TEXT as `Option String`.
* `CURRENT_TIMESTAMP` is an explicit `now : Nat` argument threaded into
  each write.
* A caught `sqlite3.Error` is modelled by a `fail : Bool` oracle on the
  write operations: `true` means the statement raised, the operation
  logs and returns its sentinel, and (no commit having run) the durable
  state is unchanged.
* Network calls of the remote backend take fault oracles:
  `headFault` (a `ClientError` code raised by `head_object`),
  `getFault` / `putFault` (a `ClientError` inside download/upload).
  A `ClientError` escaping the backend is `Except.error code`.
-/

/-- One row of the persisted `stock_daily` table: surrogate `id`,
`(code, date)` natural key, nullable numeric columns, and the
storage-managed `created_at` / `updated_at` timestamps. -/
structure Row where
  id : Nat
  code : String
  date : String
  «open» : Option Rat
  high : Option Rat
  low : Option Rat
  close : Option Rat
  volume : Option Rat
  amount : Option Rat
  pct_chg : Option Rat
  ma5 : Option Rat
  ma10 : Option Rat
  ma20 : Option Rat
  volume_ratio : Option Rat
  data_source : Option String
  created_at : Nat
  updated_at : Nat
deriving DecidableEq, Repr

/-- The embedded database: the `stock_daily` rows plus the
auto-increment counter behind `id INTEGER PRIMARY KEY AUTOINCREMENT`. -/
structure DB where
  rows : List Row
  nextId : Nat
deriving DecidableEq, Repr

/-- A freshly initialised database (after `CREATE TABLE IF NOT EXISTS`):
no rows, auto-increment starting at 1. -/
def DB.empty : DB := ⟨[], 1⟩

/-- The `StockDaily` dataclass of `storage/base.py`: the caller-supplied
payload plus the generated fields (`id`, `created_at`, `updated_at`)
which `to_dict` strips before any write binds it to SQL. -/
structure StockDaily where
  code : String
  date : String
  «open» : Option Rat
  high : Option Rat
  low : Option Rat
  close : Option Rat
  volume : Option Rat
  amount : Option Rat
  pct_chg : Option Rat
  ma5 : Option Rat
  ma10 : Option Rat
  ma20 : Option Rat
  volume_ratio : Option Rat
  data_source : Option String
  id : Option Nat
  created_at : Option String
  updated_at : Option String
deriving DecidableEq, Repr

/-- `ON CONFLICT(code, date)`: does row `r` collide with record `d`? -/
def keyMatch (d : StockDaily) (r : Row) : Bool :=
  r.code == d.code && r.date == d.date

/-- The `DO UPDATE SET` arm of the upsert: every mutable column takes
the excluded record's value and `updated_at = CURRENT_TIMESTAMP`;
`id` and `created_at` of the pre-existing row are untouched. -/
def updateRow (d : StockDaily) (now : Nat) (r : Row) : Row :=
  { r with
    «open» := d.«open», high := d.high, low := d.low, close := d.close,
    volume := d.volume, amount := d.amount, pct_chg := d.pct_chg,
    ma5 := d.ma5, ma10 := d.ma10, ma20 := d.ma20,
    volume_ratio := StockDaily.volume_ratio d,
    data_source := d.data_source,
    updated_at := now }

/-- The plain `INSERT` arm: a fresh surrogate id and both timestamps
defaulted to the current time. -/
def insertRow (db : DB) (d : StockDaily) (now : Nat) : Row :=
  { id := db.nextId, code := d.code, date := d.date,
    «open» := d.«open», high := d.high, low := d.low, close := d.close,
    volume := d.volume, amount := d.amount, pct_chg := d.pct_chg,
    ma5 := d.ma5, ma10 := d.ma10, ma20 := d.ma20,
    volume_ratio := StockDaily.volume_ratio d,
    data_source := d.data_source,
    created_at := now, updated_at := now }

/-- Applied to each row when a conflict occurred: rewrite the (unique)
conflicting row, leave the rest alone. -/
def updIf (d : StockDaily) (now : Nat) (r : Row) : Row :=
  if keyMatch d r then updateRow d now r else r

/-- The `INSERT ... ON CONFLICT(code, date) DO UPDATE SET ...` statement
shared verbatim by `StockStorage.save_daily` / `save_daily_batch` and
their remote counterparts. -/
def upsert (db : DB) (d : StockDaily) (now : Nat) : DB :=
  if db.rows.any (keyMatch d) then
    { db with rows := db.rows.map (updIf d now) }
  else
    { rows := db.rows ++ [insertRow db d now], nextId := db.nextId + 1 }

/-- Two rows with distinct `(code, date)` keys. -/
def distinctKeys (a b : Row) : Prop :=
  ¬(a.code = b.code ∧ a.date = b.date)

/-- The state invariant the `UNIQUE(code, date)` constraint enforces:
no two rows share a key. -/
def DB.wf (db : DB) : Prop :=
  db.rows.Pairwise distinctKeys

/-- `StockStorage.save_daily`: execute the upsert and commit, returning
`true`; a raised `sqlite3.Error` (the `fail` oracle) is caught, nothing
is committed, and `false` is returned. -/
def save_daily (fail : Bool) (db : DB) (d : StockDaily) (now : Nat) : DB × Bool :=
  if fail then (db, false) else (upsert db d now, true)

/-- `executemany`: the upsert statement run once per record, in order. -/
def upsertAll (db : DB) (ds : List StockDaily) (now : Nat) : DB :=
  ds.foldl (fun a d => upsert a d now) db

/-- `StockStorage.save_daily_batch`: empty input short-circuits to 0;
otherwise `executemany` + one commit returns the accumulated
`cursor.rowcount` (one affected row per statement); a raised
`sqlite3.Error` is caught before the commit, so the durable state is
unchanged and 0 is returned for the whole batch. -/
def save_daily_batch (fail : Bool) (db : DB) (ds : List StockDaily) (now : Nat) :
    DB × Nat :=
  if ds.isEmpty then (db, 0)
  else if fail then (db, 0)
  else (upsertAll db ds now, ds.length)

/-- Instrumented replay of the batch: the final database together with
how many statements of the batch took the insert arm and how many took
the update arm. -/
def runBatch (db : DB) (ds : List StockDaily) (now : Nat) : DB × Nat × Nat :=
  match ds with
  | [] => (db, 0, 0)
  | d :: rest =>
    let step := runBatch (upsert db d now) rest now
    if db.rows.any (keyMatch d) then (step.1, step.2.1, step.2.2 + 1)
    else (step.1, step.2.1 + 1, step.2.2)

/-- `WHERE code = ?`. -/
def codeRows (db : DB) (code : String) : List Row :=
  db.rows.filter (fun r => r.code == code)

/-- SQL `MAX(date)` over a list of `DATE` (TEXT) values: `NULL` on the
empty set, otherwise the lexicographically (byte-order) largest. -/
def maxDate? : List String → Option String
  | [] => none
  | d :: rest =>
    match maxDate? rest with
    | none => some d
    | some m => some (if m < d then d else m)

/-- `StockStorage.get_latest_date`: `SELECT MAX(date) ... WHERE code = ?`,
then the Python truthiness guard
`row["latest_date"] if row and row["latest_date"] else None` — a `NULL`
max and an empty-string max both come back as `None`. -/
def get_latest_date (db : DB) (code : String) : Option String :=
  match maxDate? ((codeRows db code).map (fun r => r.date)) with
  | none => none
  | some m => if m == "" then none else some m

/-- `StockStorage.get_record_count`: Python `if code:` — both `None` and
the empty string fall to the unfiltered `COUNT(*)`. -/
def get_record_count (db : DB) (code : Option String) : Nat :=
  match code with
  | some c => if c == "" then db.rows.length else (codeRows db c).length
  | none => db.rows.length

/-- A calendar date as `datetime.date` carries it. -/
structure Date where
  year : Nat
  month : Nat
  day : Nat
deriving DecidableEq, Repr

/-- Zero-padded two-digit field of `strftime`. -/
def pad2 (n : Nat) : String :=
  if n < 10 then "0" ++ toString n else toString n

/-- Zero-padded four-digit year of `strftime("%Y")`. -/
def pad4 (n : Nat) : String :=
  if n < 10 then "000" ++ toString n
  else if n < 100 then "00" ++ toString n
  else if n < 1000 then "0" ++ toString n
  else toString n

/-- `d.strftime("%Y-%m-%d")`. -/
def formatDate (d : Date) : String :=
  pad4 d.year ++ "-" ++ pad2 d.month ++ "-" ++ pad2 d.day

/-- `StockStorageManager.has_today_data`: default the reference date to
today, read the watermark, `False` on `None`, else compare with the
formatted reference date. -/
def has_today_data (db : DB) (code : String) (check_date : Option Date)
    (today : Date) : Bool :=
  let target := check_date.getD today
  match get_latest_date db code with
  | none => false
  | some latest => latest == formatDate target

/-- The state of one `RemoteStockStorage` instance together with the
remote object it is keyed to: `remote` is the S3 object's content
(`none` = no object at the key), `conn` whether the embedded connection
is open, `dirty` the `_db_modified` flag, and `localDb` the temporary
working-copy file's content (`none` = file absent). -/
structure RState where
  remote : Option DB
  conn : Bool
  dirty : Bool
  localDb : Option DB
deriving DecidableEq, Repr

/-- `RemoteStockStorage._check_object_exists`: `head_object` succeeds on
an existing object; a `ClientError` with code `"404"` means absent
(`false`); any other `ClientError` is re-raised. -/
def check_object_exists (headFault : Option String) (s : RState) :
    Except String Bool :=
  match headFault with
  | some c => if c == "404" then Except.ok false else Except.error c
  | none => Except.ok s.remote.isSome

/-- `RemoteStockStorage._download_database`: absent remote object means
"create a new database" (`false`, nothing touched); a `ClientError`
during `download_file` is caught and returns `false`; on success the
working-copy file is overwritten with the remote snapshot. A fault in
the existence check itself propagates. -/
def download_database (headFault : Option String) (getFault : Bool) (s : RState) :
    Except String (RState × Bool) :=
  match check_object_exists headFault s with
  | Except.error e => Except.error e
  | Except.ok ex =>
    if ex then
      if getFault then Except.ok (s, false)
      else Except.ok ({ s with localDb := s.remote }, true)
    else Except.ok (s, false)

/-- `RemoteStockStorage._upload_database`: fails (returns `false`) when
the working-copy file is absent or the `upload_file` call raises a
`ClientError`; on success the remote object becomes the working copy. -/
def upload_database (putFault : Bool) (s : RState) : RState × Bool :=
  match s.localDb with
  | none => (s, false)
  | some ldb => if putFault then (s, false) else ({ s with remote := some ldb }, true)

/-- `RemoteStockStorage._get_connection`: on first use, try to download
the remote snapshot, then open (creating if absent) the working-copy
file and run `CREATE TABLE IF NOT EXISTS`. -/
def get_connection (headFault : Option String) (getFault : Bool) (s : RState) :
    Except String RState :=
  if s.conn then Except.ok s
  else
    match download_database headFault getFault s with
    | Except.error e => Except.error e
    | Except.ok (s1, _) =>
      Except.ok { s1 with conn := true, localDb := some (s1.localDb.getD DB.empty) }

/-- The database the open connection reads and writes. -/
def connDB (s : RState) : DB := s.localDb.getD DB.empty

/-- `RemoteStockStorage._sync_to_remote`: only when
`_db_modified and _connection`, commit and upload, clearing the dirty
flag on a successful upload; otherwise a no-op success. -/
def sync_to_remote (putFault : Bool) (s : RState) : RState × Bool :=
  if s.dirty && s.conn then
    match upload_database putFault s with
    | (s1, true) => ({ s1 with dirty := false }, true)
    | (s1, false) => (s1, false)
  else (s, true)

/-- `RemoteStockStorage.close`: when a connection is open, sync to the
remote, release the connection, and delete the temporary working-copy
file; without a connection it does nothing. -/
def remote_close (putFault : Bool) (s : RState) : RState :=
  if s.conn then
    { (sync_to_remote putFault s).1 with conn := false, localDb := none }
  else s

/-- `RemoteStockStorage.pull`: close the embedded connection if open
(the working-copy file is kept) and re-run the download. -/
def remote_pull (headFault : Option String) (getFault : Bool) (s : RState) :
    Except String (RState × Bool) :=
  download_database headFault getFault (if s.conn then { s with conn := false } else s)

/-- `RemoteStockStorage.save_daily` (success path of the SQL): acquire
the connection — lazily attaching to the remote — run the shared upsert,
commit, and set `_db_modified`. -/
def remote_save_daily (headFault : Option String) (getFault : Bool) (s : RState)
    (d : StockDaily) (t : Nat) : Except String (RState × Bool) :=
  match get_connection headFault getFault s with
  | Except.error e => Except.error e
  | Except.ok s1 =>
    Except.ok ({ s1 with localDb := some (upsert (connDB s1) d t), dirty := true }, true)

/-- `RemoteStockStorage.get_record_count`: acquire the connection, then
the same truthiness-guarded `COUNT(*)` as the local backend. -/
def remote_record_count (headFault : Option String) (getFault : Bool) (s : RState)
    (code : Option String) : Except String (RState × Nat) :=
  match get_connection headFault getFault s with
  | Except.error e => Except.error e
  | Except.ok s1 => Except.ok (s1, get_record_count (connDB s1) code)

/-- The environment variables the manager and remote backend consult. -/
structure EnvVars where
  github_actions : Option String
  s3_bucket_name : Option String
  s3_access_key_id : Option String
  s3_secret_access_key : Option String
  s3_endpoint_url : Option String
deriving DecidableEq, Repr

/-- The explicit `remote_config` dict of `StockStorageManager`. -/
structure RemoteConfig where
  bucket_name : Option String
  access_key_id : Option String
  secret_access_key : Option String
  endpoint_url : Option String
deriving DecidableEq, Repr

/-- Python truthiness of an optional string: `None` and `""` are falsy. -/
def truthy : Option String → Bool
  | none => false
  | some s => !(s == "")

/-- Python `x or y` on optional strings. -/
def pyOr (a b : Option String) : Option String :=
  if truthy a then a else b

/-- `StockStorageManager.is_github_actions`:
`os.environ.get("GITHUB_ACTIONS") == "true"`. -/
def is_github_actions (env : EnvVars) : Bool :=
  env.github_actions == some "true"

/-- `StockStorageManager._has_remote_config`: each of the four remote
parameters resolved from explicit config `or` its environment variable,
all four truthy. -/
def has_remote_config (cfg : RemoteConfig) (env : EnvVars) : Bool :=
  truthy (pyOr cfg.bucket_name env.s3_bucket_name) &&
  truthy (pyOr cfg.access_key_id env.s3_access_key_id) &&
  truthy (pyOr cfg.secret_access_key env.s3_secret_access_key) &&
  truthy (pyOr cfg.endpoint_url env.s3_endpoint_url)

/-- `StockStorageManager._resolve_backend_type`: `auto` becomes `remote`
exactly when the CI signal and the full remote configuration are both
present; any explicit type passes through. -/
def resolve_backend_type (backend_type : String) (cfg : RemoteConfig)
    (env : EnvVars) : String :=
  if backend_type == "auto" then
    if is_github_actions env && has_remote_config cfg env then "remote" else "local"
  else backend_type

/-- The backend the manager memoizes. -/
inductive Backend
  | loc (db : DB)
  | rem (s : RState)
deriving DecidableEq, Repr

/-- `StockStorageManager._create_remote_backend`: the
`RemoteStockStorage` constructor makes no network call; it only fails
(here: `none`, after the caught `ImportError`) when boto3 is missing. -/
def create_remote_backend (boto3Available : Bool) (remoteObj : Option DB) :
    Option RState :=
  if boto3Available then some ⟨remoteObj, false, false, none⟩ else none

/-- `StockStorageManager.get_backend`: resolve the type, build the
remote backend when asked, and fall back to a fresh local backend when
remote construction fails or a non-remote type was resolved. -/
def get_backend (boto3Available : Bool) (backend_type : String) (cfg : RemoteConfig)
    (env : EnvVars) (remoteObj : Option DB) : Backend :=
  if resolve_backend_type backend_type cfg env == "remote" then
    match create_remote_backend boto3Available remoteObj with
    | some s => Backend.rem s
    | none => Backend.loc DB.empty
  else Backend.loc DB.empty

/-- One `save_daily` through a backend: the local backend's SQL cannot
raise a `ClientError`; the remote backend's can, and it is not caught. -/
def backend_save_daily (headFault : Option String) (getFault : Bool) (b : Backend)
    (d : StockDaily) (t : Nat) : Except String (Backend × Bool) :=
  match b with
  | Backend.loc db => Except.ok (Backend.loc (upsert db d t), true)
  | Backend.rem s =>
    match remote_save_daily headFault getFault s d t with
    | Except.error e => Except.error e
    | Except.ok (s1, ok) => Except.ok (Backend.rem s1, ok)

/-- `StockStorageManager.save_daily` on a fresh manager: resolve and
construct the backend, then delegate. -/
def manager_save_daily (boto3Available : Bool) (backend_type : String)
    (cfg : RemoteConfig) (env : EnvVars) (remoteObj : Option DB)
    (headFault : Option String) (getFault : Bool) (d : StockDaily) (t : Nat) :
    Except String (Backend × Bool) :=
  backend_save_daily headFault getFault
    (get_backend boto3Available backend_type cfg env remoteObj) d t

/-- One key-value input as a Python dict holds it for
`StockDaily.from_dict`: every field, the key fields included, may be
absent. -/
structure RawDict where
  code : Option String
  date : Option String
  «open» : Option Rat
  high : Option Rat
  low : Option Rat
  close : Option Rat
  volume : Option Rat
  amount : Option Rat
  pct_chg : Option Rat
  ma5 : Option Rat
  ma10 : Option Rat
  ma20 : Option Rat
  volume_ratio : Option Rat
  data_source : Option String
  id : Option Nat
  created_at : Option String
  updated_at : Option String
deriving DecidableEq, Repr

/-- `StockDaily.from_dict`: total — `data.get("code", "")` and
`data.get("date", "")` default an absent key field to the empty string,
every other absent field to `None`; nothing is rejected. -/
def StockDaily.from_dict (data : RawDict) : StockDaily :=
  { code := data.code.getD "", date := data.date.getD "",
    «open» := data.«open», high := data.high, low := data.low,
    close := data.close, volume := data.volume, amount := data.amount,
    pct_chg := data.pct_chg, ma5 := data.ma5, ma10 := data.ma10,
    ma20 := data.ma20, volume_ratio := RawDict.volume_ratio data,
    data_source := data.data_source,
    id := data.id, created_at := data.created_at, updated_at := data.updated_at }

/-- One dataframe row for `StockDaily.from_dataframe_row`: an index
value (`row.name`) and optional columns. -/
structure DFRow where
  name : String
  date : Option String
  «open» : Option Rat
  high : Option Rat
  low : Option Rat
  close : Option Rat
  volume : Option Rat
  amount : Option Rat
  pct_chg : Option Rat
  ma5 : Option Rat
  ma10 : Option Rat
  ma20 : Option Rat
  volume_ratio : Option Rat
deriving DecidableEq, Repr

/-- `StockDaily.from_dataframe_row`: total — the date comes from the
`date` column or, absent that, the row's index, truncated to 10
characters; missing optional columns become `None`. -/
def StockDaily.from_dataframe_row (row : DFRow) (code : String)
    (data_source : String) : StockDaily :=
  { code := code, date := (row.date.getD row.name).take 10,
    «open» := row.«open», high := row.high, low := row.low,
    close := row.close, volume := row.volume, amount := row.amount,
    pct_chg := row.pct_chg, ma5 := row.ma5, ma10 := row.ma10,
    ma20 := row.ma20, volume_ratio := DFRow.volume_ratio row,
    data_source := some data_source,
    id := none, created_at := none, updated_at := none }

/-- `convert_dataframe_to_stock_daily_list`: empty frame short-circuits,
otherwise one record per row. -/
def convert_dataframe_to_stock_daily_list (df : List DFRow) (code : String)
    (data_source : String) : List StockDaily :=
  if df.isEmpty then []
  else df.map (fun row => StockDaily.from_dataframe_row row code data_source)

/-- A concrete daily bar used by the evaluation theorems. -/
def dRec : StockDaily :=
  ⟨"000001", "2024-01-02", some 10, some 11, some 9, some (21 / 2 : Rat),
    some 1000, none, none, none, none, none, none, some "tushare",
    none, none, none⟩

/-- C10: an empty-string code passed to `get_record_count` hits the
Python `if code:` falsy branch, so it counts all rows — the same result
as passing no code at all, not the count of rows whose code is `""`. -/
theorem claim10_empty_code_counts_all (db : DB) :
    get_record_count db (some "") = db.rows.length ∧
    get_record_count db (some "") = get_record_count db none := by
  constructor <;> rfl

/-- C5: with mode `auto`, the manager resolves to the remote backend
exactly when the CI signal is set and each of the four remote
parameters is resolvable (truthy) from explicit configuration or its
environment variable; in every other case it resolves to `local`. -/
theorem claim5_auto_backend_resolution (cfg : RemoteConfig) (env : EnvVars) :
    (resolve_backend_type "auto" cfg env = "remote" ↔
      is_github_actions env = true ∧
      truthy (pyOr cfg.bucket_name env.s3_bucket_name) = true ∧
      truthy (pyOr cfg.access_key_id env.s3_access_key_id) = true ∧
      truthy (pyOr cfg.secret_access_key env.s3_secret_access_key) = true ∧
      truthy (pyOr cfg.endpoint_url env.s3_endpoint_url) = true) ∧
    (resolve_backend_type "auto" cfg env = "remote" ∨
      resolve_backend_type "auto" cfg env = "local") := by
  have key : resolve_backend_type "auto" cfg env =
      (if is_github_actions env && has_remote_config cfg env
        then "remote" else "local") := rfl
  constructor
  · rw [key]
    cases hci : is_github_actions env <;>
      cases hb : truthy (pyOr cfg.bucket_name env.s3_bucket_name) <;>
      cases hk : truthy (pyOr cfg.access_key_id env.s3_access_key_id) <;>
      cases hs : truthy (pyOr cfg.secret_access_key env.s3_secret_access_key) <;>
      cases he : truthy (pyOr cfg.endpoint_url env.s3_endpoint_url) <;>
      simp [has_remote_config, hci, hb, hk, hs, he]
  · rw [key]
    by_cases h : (is_github_actions env && has_remote_config cfg env) = true
    · left; simp [h]
    · right; simp [h]

/-- C7 counterexample: a dict lacking both key attributes is not
rejected — `from_dict` returns a record whose `code` and `date` are the
empty string, and `save_daily` stores it as a new row. -/
theorem claim7_counterexample :
    StockDaily.from_dict
        ⟨none, none, none, none, none, none, none, none, none, none, none,
          none, none, none, none, none, none⟩ =
      ⟨"", "", none, none, none, none, none, none, none, none, none, none,
        none, none, none, none, none⟩ ∧
    save_daily false DB.empty
        (StockDaily.from_dict
          ⟨none, none, none, none, none, none, none, none, none, none, none,
            none, none, none, none, none, none⟩) 7 =
      (⟨[⟨1, "", "", none, none, none, none, none, none, none, none, none,
          none, none, none, 7, 7⟩], 2⟩, true) := by
  constructor <;> rfl

/-- C7 (amended): both conversions are total and never raise — a missing
optional column yields a `None` attribute, a missing `code` or `date`
yields an empty-string key field, the list conversion produces one
record per row, and a converted record is accepted by storage rather
than rejected. -/
theorem claim7_conversions_total (db : DB) (data : RawDict) (row : DFRow)
    (df : List DFRow) (code data_source : String) (t : Nat) :
    (StockDaily.from_dict data).code = data.code.getD "" ∧
    (StockDaily.from_dict data).date = data.date.getD "" ∧
    (StockDaily.from_dict data).«open» = data.«open» ∧
    (StockDaily.from_dict data).close = data.close ∧
    (StockDaily.from_dict data).ma5 = data.ma5 ∧
    (StockDaily.from_dict data).data_source = data.data_source ∧
    (StockDaily.from_dataframe_row row code data_source).code = code ∧
    (StockDaily.from_dataframe_row row code data_source).date
        = (row.date.getD row.name).take 10 ∧
    (StockDaily.from_dataframe_row row code data_source).«open» = row.«open» ∧
    (convert_dataframe_to_stock_daily_list df code data_source).length
        = df.length ∧
    (save_daily false db (StockDaily.from_dict data) t).2 = true := by
  refine ⟨rfl, rfl, rfl, rfl, rfl, rfl, rfl, ?_, rfl, ?_, rfl⟩
  · simp only [StockDaily.from_dataframe_row]
  · cases df <;> simp [convert_dataframe_to_stock_daily_list]

/-- C9: `has_today_data` is true exactly when the stored watermark
equals the formatted reference date (the explicit `check_date`,
defaulting to today), and is false for a code with no stored rows. -/
theorem claim9_has_today_data (db : DB) (code : String)
    (check_date : Option Date) (today : Date) :
    (has_today_data db code check_date today = true ↔
      get_latest_date db code = some (formatDate (check_date.getD today))) ∧
    (codeRows db code = [] → has_today_data db code check_date today = false) := by
  constructor
  · unfold has_today_data
    cases h : get_latest_date db code with
    | none => simp
    | some latest => simp [beq_iff_eq]
  · intro hd
    have hnone : get_latest_date db code = none := by
      unfold get_latest_date
      rw [hd]
      rfl
    unfold has_today_data
    rw [hnone]

theorem str_not_lt_empty (s : String) : ¬s < "" := by
  intro h
  rw [String.lt_iff_toList_lt] at h
  have he : ("" : String).toList = [] := rfl
  rw [he] at h
  generalize s.toList = l at h
  cases h

theorem str_le_empty_eq (s : String) (h : s ≤ "") : s = "" :=
  le_antisymm h (not_lt.mp (str_not_lt_empty s))

theorem maxDate?_eq_none {l : List String} : maxDate? l = none ↔ l = [] := by
  cases l with
  | nil => simp [maxDate?]
  | cons d rest =>
    cases h : maxDate? rest <;> simp [maxDate?, h]


theorem maxDate?_mem {l : List String} {m : String} (h : maxDate? l = some m) :
    m ∈ l := by
  induction l generalizing m with
  | nil => simp [maxDate?] at h
  | cons d rest ih =>
    rw [maxDate?] at h
    cases hr : maxDate? rest with
    | none =>
      rw [hr] at h
      simp only [Option.some.injEq] at h
      subst h
      exact List.mem_cons_self d rest
    | some m0 =>
      rw [hr] at h
      simp only [Option.some.injEq] at h
      by_cases hlt : m0 < d
      · rw [if_pos hlt] at h
        subst h
        exact List.mem_cons_self d rest
      · rw [if_neg hlt] at h
        subst h
        exact List.mem_cons_of_mem d (ih hr)

theorem maxDate?_le {l : List String} {m : String} (h : maxDate? l = some m) :
    ∀ d ∈ l, d ≤ m := by
  induction l generalizing m with
  | nil => simp [maxDate?] at h
  | cons d rest ih =>
    rw [maxDate?] at h
    cases hr : maxDate? rest with
    | none =>
      rw [hr] at h
      simp only [Option.some.injEq] at h
      have hrest : rest = [] := maxDate?_eq_none.mp hr
      subst hrest
      subst h
      intro x hx
      simp only [List.mem_singleton] at hx
      subst hx
      exact le_refl x
    | some m0 =>
      rw [hr] at h
      simp only [Option.some.injEq] at h
      intro x hx
      have hm0 : m0 ≤ m := by
        by_cases hlt : m0 < d
        · rw [if_pos hlt] at h
          exact h ▸ le_of_lt hlt
        · rw [if_neg hlt] at h
          exact le_of_eq h
      rcases List.mem_cons.mp hx with hxd | hxr
      · rw [hxd]
        by_cases hlt : m0 < d
        · rw [if_pos hlt] at h
          exact le_of_eq h
        · rw [if_neg hlt] at h
          exact le_trans (not_lt.mp hlt) hm0
      · exact le_trans (ih hr x hxr) hm0

theorem get_latest_date_of_max_none {db : DB} {code : String}
    (h : maxDate? ((codeRows db code).map (fun r => r.date)) = none) :
    get_latest_date db code = none := by
  unfold get_latest_date
  rw [h]

theorem get_latest_date_of_max_some {db : DB} {code : String} {m : String}
    (h : maxDate? ((codeRows db code).map (fun r => r.date)) = some m) :
    get_latest_date db code = if m == "" then none else some m := by
  unfold get_latest_date
  rw [h]

/-- A record whose `date` is the (falsy) empty string. -/
def dEmptyDate : StockDaily :=
  ⟨"600000", "", none, none, none, none, none, none, none, none, none,
    none, none, none, none, none, none⟩

/-- C3 counterexample: a row with an empty-string date is storable
(`date` is `NOT NULL` but `""` is not `NULL`), yet `get_latest_date`
returns `None` for its code even though one row exists — the Python
truthiness guard swallows the empty-string maximum, so "returns none
exactly when zero rows exist for that code" fails. -/
theorem claim3_counterexample :
    (save_daily false DB.empty dEmptyDate 3).2 = true ∧
    get_latest_date (save_daily false DB.empty dEmptyDate 3).1 "600000" = none ∧
    (codeRows (save_daily false DB.empty dEmptyDate 3).1 "600000").length = 1 := by
  refine ⟨rfl, rfl, rfl⟩

/-- C3 (amended): `get_latest_date` returns `none` exactly when the code
has no stored rows or every stored date for the code is the empty
string (the truthiness guard maps an empty-string maximum to `None`);
when it returns a date, that date is attained by a stored row of the
code and is an upper bound of all the code's stored dates. -/
theorem claim3_latest_date_amended (db : DB) (code : String) :
    (get_latest_date db code = none ↔
      ∀ r ∈ db.rows, r.code = code → r.date = "") ∧
    ((match get_latest_date db code with
      | none => true
      | some m =>
        (codeRows db code).any (fun r => r.date == m) &&
          (codeRows db code).all (fun r => decide (r.date ≤ m))) = true) := by
  have hmemcr : ∀ r : Row, r ∈ codeRows db code ↔ r ∈ db.rows ∧ r.code = code := by
    intro r
    unfold codeRows
    rw [List.mem_filter]
    simp [beq_iff_eq]
  constructor
  · cases hmx : maxDate? ((codeRows db code).map (fun r => r.date)) with
    | none =>
      rw [get_latest_date_of_max_none hmx]
      have hnil : codeRows db code = [] :=
        List.map_eq_nil_iff.mp (maxDate?_eq_none.mp hmx)
      simp only [true_iff]
      intro r hr hc
      have hmem : r ∈ codeRows db code := (hmemcr r).mpr ⟨hr, hc⟩
      rw [hnil] at hmem
      exact absurd hmem (List.not_mem_nil r)
    | some m =>
      rw [get_latest_date_of_max_some hmx]
      by_cases hm : m = ""
      · subst hm
        rw [if_pos (show (("" : String) == "") = true from rfl)]
        simp only [true_iff]
        intro r hr hc
        have hmem : r.date ∈ (codeRows db code).map (fun r => r.date) :=
          List.mem_map_of_mem _ ((hmemcr r).mpr ⟨hr, hc⟩)
        exact str_le_empty_eq _ (maxDate?_le hmx _ hmem)
      · rw [if_neg (by simpa using hm)]
        constructor
        · intro hcontra
          exact absurd hcontra (by simp)
        · intro hall
          exfalso
          obtain ⟨r, hrmem, hrdate⟩ := List.mem_map.mp (maxDate?_mem hmx)
          have hrp := (hmemcr r).mp hrmem
          have hempty : r.date = "" := hall r hrp.1 hrp.2
          rw [hrdate] at hempty
          exact hm hempty
  · cases hmx : maxDate? ((codeRows db code).map (fun r => r.date)) with
    | none =>
      rw [get_latest_date_of_max_none hmx]
    | some m0 =>
      rw [get_latest_date_of_max_some hmx]
      by_cases hm0 : m0 = ""
      · rw [if_pos (by simpa using hm0)]
      · rw [if_neg (by simpa using hm0)]
        show ((codeRows db code).any (fun r => r.date == m0) &&
          (codeRows db code).all (fun r => decide (r.date ≤ m0))) = true
        simp only [List.any_eq_true, List.all_eq_true, Bool.and_eq_true]
        constructor
        · obtain ⟨r, hrmem, hrdate⟩ := List.mem_map.mp (maxDate?_mem hmx)
          exact ⟨r, hrmem, by simp [hrdate]⟩
        · intro r hr
          have hmem : r.date ∈ (codeRows db code).map (fun r => r.date) :=
            List.mem_map_of_mem _ hr
          simpa using maxDate?_le hmx _ hmem

theorem keyMatch_true_iff {d : StockDaily} {r : Row} :
    keyMatch d r = true ↔ r.code = d.code ∧ r.date = d.date := by
  simp [keyMatch, Bool.and_eq_true, beq_iff_eq]

theorem keyMatch_updateRow (d : StockDaily) (t : Nat) (r : Row) :
    keyMatch d (updateRow d t r) = keyMatch d r := rfl

theorem keyMatch_insertRow (db : DB) (d : StockDaily) (t : Nat) :
    keyMatch d (insertRow db d t) = true := by
  simp [keyMatch, insertRow]

theorem updIf_code (d : StockDaily) (t : Nat) (r : Row) :
    (updIf d t r).code = r.code := by
  unfold updIf
  split <;> rfl

theorem updIf_date (d : StockDaily) (t : Nat) (r : Row) :
    (updIf d t r).date = r.date := by
  unfold updIf
  split <;> rfl

theorem keyMatch_updIf (d : StockDaily) (t : Nat) (r : Row) :
    keyMatch d (updIf d t r) = keyMatch d r := by
  unfold keyMatch
  rw [updIf_code, updIf_date]

theorem filter_key_map (d : StockDaily) (t : Nat) (l : List Row) :
    (l.map (updIf d t)).filter (keyMatch d) =
      (l.filter (keyMatch d)).map (updateRow d t) := by
  induction l with
  | nil => rfl
  | cons a l ih =>
    simp only [List.map_cons, List.filter_cons, keyMatch_updIf]
    cases h : keyMatch d a with
    | true =>
      have hupd : updIf d t a = updateRow d t a := by
        unfold updIf
        rw [if_pos h]
      simp [hupd, ih]
    | false => simp [ih]

theorem upsert_rows_pos {db : DB} {d : StockDaily} (t : Nat)
    (h : db.rows.any (keyMatch d) = true) :
    (upsert db d t).rows = db.rows.map (updIf d t) := by
  unfold upsert
  rw [if_pos h]

theorem upsert_rows_neg {db : DB} {d : StockDaily} (t : Nat)
    (h : db.rows.any (keyMatch d) = false) :
    (upsert db d t).rows = db.rows ++ [insertRow db d t] := by
  unfold upsert
  rw [if_neg (by simp [h])]

theorem filter_key_insert (db : DB) (d : StockDaily) (t : Nat)
    (h : db.rows.any (keyMatch d) = false) :
    (db.rows ++ [insertRow db d t]).filter (keyMatch d) = [insertRow db d t] := by
  rw [List.filter_append]
  have h1 : db.rows.filter (keyMatch d) = [] := by
    rw [List.filter_eq_nil_iff]
    intro a ha
    exact (List.any_eq_false.mp h) a ha
  rw [h1]
  simp [keyMatch_insertRow]

theorem wf_filter_singleton {l : List Row} (d : StockDaily)
    (hwf : l.Pairwise distinctKeys) (h : l.any (keyMatch d) = true) :
    ∃ r, l.filter (keyMatch d) = [r] ∧ keyMatch d r = true := by
  induction l with
  | nil => simp at h
  | cons a l ih =>
    rcases List.pairwise_cons.mp hwf with ⟨ha, hl⟩
    cases hka : keyMatch d a with
    | true =>
      refine ⟨a, ?_, hka⟩
      rw [List.filter_cons, if_pos hka]
      have hnil : l.filter (keyMatch d) = [] := by
        rw [List.filter_eq_nil_iff]
        intro b hb hkb
        have hka' := keyMatch_true_iff.mp hka
        have hkb' := keyMatch_true_iff.mp hkb
        exact (ha b hb) ⟨hka'.1.trans hkb'.1.symm, hka'.2.trans hkb'.2.symm⟩
      rw [hnil]
    | false =>
      have h' : l.any (keyMatch d) = true := by
        rw [List.any_cons, hka] at h
        simpa using h
      obtain ⟨r, hfil, hkr⟩ := ih hl h'
      exact ⟨r, by rw [List.filter_cons, if_neg (by simp [hka]), hfil], hkr⟩

theorem upsert_wf {db : DB} (d : StockDaily) (t : Nat) (hwf : db.wf) :
    (upsert db d t).wf := by
  unfold DB.wf at *
  cases hany : db.rows.any (keyMatch d) with
  | true =>
    rw [upsert_rows_pos t hany]
    refine List.Pairwise.map (updIf d t) ?_ hwf
    intro a b hab
    unfold distinctKeys at *
    intro hk
    apply hab
    rw [updIf_code, updIf_code, updIf_date, updIf_date] at hk
    exact hk
  | false =>
    rw [upsert_rows_neg t hany]
    rw [List.pairwise_append]
    refine ⟨hwf, List.pairwise_singleton _ _, ?_⟩
    intro a ha b hb
    simp only [List.mem_singleton] at hb
    subst hb
    have hna := (List.any_eq_false.mp hany) a ha
    unfold distinctKeys
    intro hk
    apply hna
    rw [keyMatch_true_iff]
    exact ⟨hk.1, hk.2⟩

/-- C1: saving the same `(code, date)` record twice (both saves
succeeding) leaves exactly one stored row for the pair on both the
local and the remote backend; that row's `id` and `created_at` are
unchanged between the saves, while its `updated_at` is the first
save's timestamp after the first save and the (later) second
timestamp after the second. -/
theorem claim1_upsert_idempotent_key (db db1 db2 : DB) (d : StockDaily)
    (t1 t2 : Nat) (f1 f2 : Bool) (ro : Option DB) (dd : Bool)
    (hf : Option String) (gf : Bool)
    (hwf : db.wf)
    (h1 : save_daily f1 db d t1 = (db1, true))
    (h2 : save_daily f2 db1 d t2 = (db2, true))
    (ht : t1 < t2) :
    (db1.rows.filter (keyMatch d)).length = 1 ∧
    (db2.rows.filter (keyMatch d)).length = 1 ∧
    (db2.rows.filter (keyMatch d)).map Row.id =
      (db1.rows.filter (keyMatch d)).map Row.id ∧
    (db2.rows.filter (keyMatch d)).map Row.created_at =
      (db1.rows.filter (keyMatch d)).map Row.created_at ∧
    (db1.rows.filter (keyMatch d)).map Row.updated_at = [t1] ∧
    (db2.rows.filter (keyMatch d)).map Row.updated_at = [t2] ∧
    t1 < t2 ∧
    (match remote_save_daily hf gf ⟨ro, true, dd, some db⟩ d t1 with
      | Except.error e => Except.error e
      | Except.ok (s1, _) => remote_save_daily hf gf s1 d t2) =
      Except.ok ((⟨ro, true, true, some db2⟩ : RState), true) := by
  have hf1 : f1 = false := by
    cases f1
    · rfl
    · exfalso
      have := congrArg Prod.snd h1
      simp [save_daily] at this
  subst hf1
  have hf2 : f2 = false := by
    cases f2
    · rfl
    · exfalso
      have := congrArg Prod.snd h2
      simp [save_daily] at this
  subst hf2
  have hdb1 : db1 = upsert db d t1 := by
    have := congrArg Prod.fst h1
    simpa [save_daily] using this.symm
  have hdb2 : db2 = upsert db1 d t2 := by
    have := congrArg Prod.fst h2
    simpa [save_daily] using this.symm
  subst hdb1
  subst hdb2
  have hremote :
      (match remote_save_daily hf gf ⟨ro, true, dd, some db⟩ d t1 with
        | Except.error e => Except.error e
        | Except.ok (s1, _) => remote_save_daily hf gf s1 d t2) =
        Except.ok ((⟨ro, true, true,
          some (upsert (upsert db d t1) d t2)⟩ : RState), true) := rfl
  cases hany : db.rows.any (keyMatch d) with
  | false =>
    have e1 : (upsert db d t1).rows.filter (keyMatch d) = [insertRow db d t1] := by
      rw [upsert_rows_neg t1 hany]
      exact filter_key_insert db d t1 hany
    have hany1 : (upsert db d t1).rows.any (keyMatch d) = true := by
      rw [List.any_eq_true]
      refine ⟨insertRow db d t1, ?_, keyMatch_insertRow db d t1⟩
      rw [upsert_rows_neg t1 hany]
      exact List.mem_append_right _ (List.mem_singleton_self _)
    have e2 : (upsert (upsert db d t1) d t2).rows.filter (keyMatch d) =
        [updateRow d t2 (insertRow db d t1)] := by
      rw [upsert_rows_pos t2 hany1, filter_key_map, e1]
      rfl
    rw [e1, e2]
    exact ⟨rfl, rfl, rfl, rfl, rfl, rfl, ht, hremote⟩
  | true =>
    obtain ⟨r0, hf0, hk0⟩ := wf_filter_singleton d hwf hany
    have e1 : (upsert db d t1).rows.filter (keyMatch d) = [updateRow d t1 r0] := by
      rw [upsert_rows_pos t1 hany, filter_key_map, hf0]
      rfl
    have hany1 : (upsert db d t1).rows.any (keyMatch d) = true := by
      rw [List.any_eq_true]
      refine ⟨updateRow d t1 r0, ?_, by rw [keyMatch_updateRow]; exact hk0⟩
      have : updateRow d t1 r0 ∈ (upsert db d t1).rows.filter (keyMatch d) := by
        rw [e1]
        exact List.mem_singleton_self _
      exact List.mem_of_mem_filter this
    have e2 : (upsert (upsert db d t1) d t2).rows.filter (keyMatch d) =
        [updateRow d t2 (updateRow d t1 r0)] := by
      rw [upsert_rows_pos t2 hany1, filter_key_map, e1]
      rfl
    rw [e1, e2]
    exact ⟨rfl, rfl, rfl, rfl, rfl, rfl, ht, hremote⟩

/-- C1 witness: the double save evaluated on a concrete record against
the empty database, on both backends. -/
theorem claim1_upsert_idempotent_key_witness :
    ((upsert DB.empty dRec 1).rows.filter (keyMatch dRec)).length = 1 ∧
    ((upsert (upsert DB.empty dRec 1) dRec 2).rows.filter (keyMatch dRec)).length = 1 ∧
    ((upsert (upsert DB.empty dRec 1) dRec 2).rows.filter (keyMatch dRec)).map Row.id =
      ((upsert DB.empty dRec 1).rows.filter (keyMatch dRec)).map Row.id ∧
    ((upsert (upsert DB.empty dRec 1) dRec 2).rows.filter (keyMatch dRec)).map
        Row.created_at =
      ((upsert DB.empty dRec 1).rows.filter (keyMatch dRec)).map Row.created_at ∧
    ((upsert DB.empty dRec 1).rows.filter (keyMatch dRec)).map Row.updated_at = [1] ∧
    ((upsert (upsert DB.empty dRec 1) dRec 2).rows.filter (keyMatch dRec)).map
        Row.updated_at = [2] ∧
    1 < 2 ∧
    (match remote_save_daily none false ⟨none, true, false, some DB.empty⟩ dRec 1 with
      | Except.error e => Except.error e
      | Except.ok (s1, _) => remote_save_daily none false s1 dRec 2) =
      Except.ok ((⟨none, true, true,
        some (upsert (upsert DB.empty dRec 1) dRec 2)⟩ : RState), true) :=
  claim1_upsert_idempotent_key DB.empty (upsert DB.empty dRec 1)
    (upsert (upsert DB.empty dRec 1) dRec 2) dRec 1 2 false false none false
    none false List.Pairwise.nil rfl rfl (by decide)

theorem runBatch_fst (db : DB) (ds : List StockDaily) (t : Nat) :
    (runBatch db ds t).1 = upsertAll db ds t := by
  induction ds generalizing db with
  | nil => rfl
  | cons d rest ih =>
    simp only [runBatch, upsertAll, List.foldl_cons]
    split <;> exact ih (upsert db d t)

theorem runBatch_count (db : DB) (ds : List StockDaily) (t : Nat) :
    (runBatch db ds t).2.1 + (runBatch db ds t).2.2 = ds.length := by
  induction ds generalizing db with
  | nil => rfl
  | cons d rest ih =>
    simp only [runBatch, List.length_cons]
    split <;> · have := ih (upsert db d t); simp only []; omega

/-- C2: a non-empty batch either succeeds as one unit — the stored state
is the whole batch upserted in order, and the returned count is the
number of rows affected, i.e. the batch's insert-arm executions plus its
update-arm executions — or some statement of the batch raises, in which
case nothing is committed (the stored state is unchanged) and 0 is
returned for the whole batch. -/
theorem claim2_batch_save_atomic (db : DB) (ds : List StockDaily) (t : Nat)
    (fail : Bool) (hne : ds ≠ []) :
    (fail = false ∧
      save_daily_batch fail db ds t =
        (upsertAll db ds t,
          (runBatch db ds t).2.1 + (runBatch db ds t).2.2)) ∨
    (fail = true ∧ save_daily_batch fail db ds t = (db, 0)) := by
  have hne' : ds.isEmpty = false := by
    cases ds
    · exact absurd rfl hne
    · rfl
  cases fail
  · left
    refine ⟨rfl, ?_⟩
    unfold save_daily_batch
    rw [hne', runBatch_count]
    rfl
  · right
    refine ⟨rfl, ?_⟩
    unfold save_daily_batch
    rw [hne']
    rfl

/-- C2 witness: a concrete singleton batch against the empty database. -/
theorem claim2_batch_save_atomic_witness :
    (false = false ∧
      save_daily_batch false DB.empty [dRec] 4 =
        (upsertAll DB.empty [dRec] 4,
          (runBatch DB.empty [dRec] 4).2.1 + (runBatch DB.empty [dRec] 4).2.2)) ∨
    (false = true ∧ save_daily_batch false DB.empty [dRec] 4 = (DB.empty, 0)) :=
  claim2_batch_save_atomic DB.empty [dRec] 4 false (List.cons_ne_nil dRec [])

/-- C4 counterexample: reachable by one write then a `close` whose
upload raises — the instance ends dirty (a write happened and no upload
ever succeeded: the remote object is still absent), yet a subsequent
`sync` performs no upload and reports success, because
`_sync_to_remote` also requires an open connection. "Uploads if and
only if dirty since the last successful upload" fails. -/
theorem claim4_counterexample :
    remote_save_daily none false ⟨none, false, false, none⟩ dRec 1 =
      Except.ok ((⟨none, true, true, some (upsert DB.empty dRec 1)⟩ : RState),
        true) ∧
    remote_close true ⟨none, true, true, some (upsert DB.empty dRec 1)⟩ =
      ⟨none, false, true, none⟩ ∧
    sync_to_remote false ⟨none, false, true, none⟩ =
      (⟨none, false, true, none⟩, true) := by
  refine ⟨rfl, rfl, rfl⟩

/-- C4 (amended): `sync` uploads exactly when the copy is dirty AND the
connection is open; on a clean copy, or after the connection is
released, it performs no upload and returns success; a dirty open copy
with a working upload is uploaded and the flag cleared; `close` on a
connected instance always releases the connection and deletes the
working-copy file, and (when dirty and the upload succeeds) leaves the
remote object equal to the working copy. -/
theorem claim4_sync_close_amended (s : RState) (pf : Bool) (ldb : DB) :
    (s.dirty = false → sync_to_remote pf s = (s, true)) ∧
    (s.conn = false → sync_to_remote pf s = (s, true)) ∧
    (s.conn = true → s.dirty = true → s.localDb = some ldb → pf = false →
      sync_to_remote pf s = ({ s with remote := some ldb, dirty := false }, true)) ∧
    (s.conn = true →
      (remote_close pf s).conn = false ∧ (remote_close pf s).localDb = none) ∧
    (s.conn = true → s.dirty = true → s.localDb = some ldb → pf = false →
      (remote_close pf s).remote = some ldb) := by
  obtain ⟨ro, conn, dirty, ldb0⟩ := s
  refine ⟨?_, ?_, ?_, ?_, ?_⟩
  · intro h
    cases h
    rfl
  · intro h
    cases h
    simp [sync_to_remote]
  · intro hc hd hl hp
    cases hc
    cases hd
    cases hl
    cases hp
    rfl
  · intro hc
    cases hc
    exact ⟨rfl, rfl⟩
  · intro hc hd hl hp
    cases hc
    cases hd
    cases hl
    cases hp
    rfl

/-- C8 counterexample: attach with no remote object, write one row, then
`pull` — the download finds no remote object, returns `false` and leaves
the stale working-copy file in place, so a subsequent read still sees
the earlier local row (count 1) even though the remote object holds
nothing. "No stale prior working-copy data remains visible" fails. -/
theorem claim8_counterexample :
    remote_save_daily none false ⟨none, false, false, none⟩ dRec 1 =
      Except.ok ((⟨none, true, true, some (upsert DB.empty dRec 1)⟩ : RState),
        true) ∧
    remote_pull none false ⟨none, true, true, some (upsert DB.empty dRec 1)⟩ =
      Except.ok ((⟨none, false, true, some (upsert DB.empty dRec 1)⟩ : RState),
        false) ∧
    remote_record_count none false
        ⟨none, false, true, some (upsert DB.empty dRec 1)⟩ none =
      Except.ok ((⟨none, true, true, some (upsert DB.empty dRec 1)⟩ : RState),
        1) := by
  refine ⟨rfl, rfl, rfl⟩

/-- C8 (amended): `pull` closes the connection and re-downloads; when the
remote object exists (and the transfer works) the working copy becomes
the remote snapshot and a subsequent read reflects it; when the remote
object does not exist, `pull` returns `false` and leaves the prior
working copy in place, so subsequent reads still see the earlier local
state. -/
theorem claim8_pull_freshness_amended (s : RState) (rdb : DB) :
    (s.remote = some rdb →
      remote_pull none false s =
        Except.ok ({ s with conn := false, localDb := some rdb }, true)) ∧
    (s.remote = none →
      remote_pull none false s = Except.ok ({ s with conn := false }, false)) ∧
    (s.remote = some rdb →
      remote_record_count none false
          ({ s with conn := false, localDb := some rdb }) none =
        Except.ok ({ s with conn := true, localDb := some rdb },
          rdb.rows.length)) := by
  obtain ⟨ro, conn, dirty, ldb0⟩ := s
  refine ⟨?_, ?_, ?_⟩
  · intro h
    cases h
    cases conn <;> rfl
  · intro h
    cases h
    cases conn <;> rfl
  · intro h
    cases h
    rfl

/-- C6 counterexample: with boto3 present, CI signalled and a full
remote configuration, backend construction succeeds with no network
call; the first storage operation then runs the existence check, whose
non-404 `ClientError` (here a 403 credential rejection) is caught
nowhere — it propagates through the Manager to the caller as an
exception instead of surfacing as a construction failure with local
fallback. -/
theorem claim6_counterexample :
    manager_save_daily true "auto"
        ⟨some "bkt", some "key", some "secret", some "endpoint"⟩
        ⟨some "true", none, none, none, none⟩ none (some "403") false dRec 5 =
      Except.error "403" := rfl

/-- C6 (amended): the Manager's fallback covers only construction-time
failures — with boto3 missing, remote construction fails and every
save lands on a fresh local backend; but once a remote backend is
constructed, a non-404 `ClientError` raised by the existence check
during the first storage operation propagates through the Manager to
the caller. -/
theorem claim6_fault_containment_amended (cfg : RemoteConfig) (env : EnvVars)
    (remoteObj : Option DB) (hf : Option String) (gf : Bool) (d : StockDaily)
    (t : Nat) (c : String)
    (hres : resolve_backend_type "auto" cfg env = "remote")
    (hc : c ≠ "404") :
    manager_save_daily false "auto" cfg env remoteObj hf gf d t =
      Except.ok (Backend.loc (upsert DB.empty d t), true) ∧
    manager_save_daily true "auto" cfg env remoteObj (some c) gf d t =
      Except.error c := by
  have hc' : (c == "404") = false := by simp [hc]
  constructor
  · unfold manager_save_daily get_backend
    rw [hres]
    rfl
  · unfold manager_save_daily get_backend
    rw [hres]
    show backend_save_daily (some c) gf
        (Backend.rem ⟨remoteObj, false, false, none⟩) d t = Except.error c
    unfold backend_save_daily remote_save_daily get_connection
      download_database check_object_exists
    simp [hc']

/-- C6 witness: the amended behaviour at a concrete configuration and a
concrete 500-class fault. -/
theorem claim6_fault_containment_amended_witness :
    manager_save_daily false "auto"
        ⟨some "bkt", some "key", some "secret", some "endpoint"⟩
        ⟨some "true", none, none, none, none⟩ none none false dRec 6 =
      Except.ok (Backend.loc (upsert DB.empty dRec 6), true) ∧
    manager_save_daily true "auto"
        ⟨some "bkt", some "key", some "secret", some "endpoint"⟩
        ⟨some "true", none, none, none, none⟩ none (some "500") false dRec 6 =
      Except.error "500" :=
  claim6_fault_containment_amended
    ⟨some "bkt", some "key", some "secret", some "endpoint"⟩
    ⟨some "true", none, none, none, none⟩ none none false dRec 6 "500"
    rfl (by decide)
